import Mathlib

/-!
Verification development for the ghostchat repository (headless Ghost Chat
client `ghost_client.py` and signaling relay `relay.py`).

Shallow embedding conventions:
* Python `bytes` are `List Nat` with every element `< 256` (stated as a
  hypothesis where it matters).
* Python `str` values that are only carried around are `String`; the codec
  works on `List Char` (one Python character per list element).
* Text payloads handed to `zlib`/`AESGCM`/`json` are modelled at the byte
  level; the UTF-8 encode/decode steps of the source are identities on that
  representation.
* External libraries (`zlib`, `AESGCM` from `cryptography`, `json`, the
  `aiortc` transport) are not code of this repository; they enter as explicit
  function parameters, and their documented contracts enter as hypotheses of
  the theorems that need them.  Everything written out below is translated
  from `src/ghost_client.py` / `src/relay.py`.
* A Python function that can raise returns `Option`/`Except`; `none`/`.error`
  is the raised exception.
-/

namespace Ghost

/-! ### base64url codec (`b64url_encode` / `b64url_decode`, ghost_client.py lines 31-36)

`base64.urlsafe_b64encode` produces the URL-safe alphabet with `=` padding;
the source then strips the padding (`.rstrip(b'=')`).
`base64.urlsafe_b64decode` translates `-` to `+` and `_` to `/` and then runs
CPython's lenient `binascii.a2b_base64`, which
* ignores characters outside the standard alphabet,
* ignores `=` while fewer than two sextets of the current group are present,
* stops (returning the bytes so far) once `=` signs complete a group of 2 or
  3 sextets, and
* fails at end of input when a group of 1, 2 or 3 sextets is left unpadded.
The source's `b64url_decode` first re-appends `'=' * (4 - len(s) % 4)`
(4 signs when the length is already a multiple of 4, which the lenient
decoder ignores). -/

/-- URL-safe base64 alphabet (used by `base64.urlsafe_b64encode`). -/
def b64alphabet : List Char :=
  ['A','B','C','D','E','F','G','H','I','J','K','L','M',
   'N','O','P','Q','R','S','T','U','V','W','X','Y','Z',
   'a','b','c','d','e','f','g','h','i','j','k','l','m',
   'n','o','p','q','r','s','t','u','v','w','x','y','z',
   '0','1','2','3','4','5','6','7','8','9','-','_']

/-- Standard base64 alphabet (the table `binascii.a2b_base64` decodes with,
after `urlsafe_b64decode` has translated `-` to `+` and `_` to `/`). -/
def b64alphabetStd : List Char :=
  ['A','B','C','D','E','F','G','H','I','J','K','L','M',
   'N','O','P','Q','R','S','T','U','V','W','X','Y','Z',
   'a','b','c','d','e','f','g','h','i','j','k','l','m',
   'n','o','p','q','r','s','t','u','v','w','x','y','z',
   '0','1','2','3','4','5','6','7','8','9','+','/']

/-- Sextet value `n` rendered in the URL-safe alphabet. -/
def b64char (n : Nat) : Char := b64alphabet.getD n 'A'

/-- `bytes.translate` step of `base64.urlsafe_b64decode`. -/
def b64url_translate (ch : Char) : Char :=
  if ch = '-' then '+' else if ch = '_' then '/' else ch

/-- Sextet value of a character under the standard table (`none` = not in the
alphabet; the lenient decoder ignores such characters). -/
def b64val (c : Char) : Option Nat := b64alphabetStd.findIdx? (fun d => d == c)

/-- `base64.urlsafe_b64encode`: groups of 3 bytes become 4 alphabet
characters; a trailing group of 1 or 2 bytes is padded with `=`. -/
def urlsafe_b64encode : List Nat → List Char
  | [] => []
  | [a] => [b64char (a / 4), b64char (a % 4 * 16), '=', '=']
  | [a, b] => [b64char (a / 4), b64char (a % 4 * 16 + b / 16), b64char (b % 16 * 4), '=']
  | a :: b :: c :: rest =>
    b64char (a / 4) :: b64char (a % 4 * 16 + b / 16) ::
      b64char (b % 16 * 4 + c / 64) :: b64char (c % 64) :: urlsafe_b64encode rest

/-- `.rstrip(b'=')`: remove the trailing run of `=` characters. -/
def rstripPad : List Char → List Char
  | [] => []
  | ch :: t =>
    let r := rstripPad t
    if ch = '=' ∧ r = [] then [] else ch :: r

/-- `b64url_encode(data)` from ghost_client.py: url-safe base64 with the
padding stripped. -/
def b64url_encode (data : List Nat) : List Char := rstripPad (urlsafe_b64encode data)

/-- Bytes produced by a complete group of 4 sextets, or by a group of 2 or 3
sextets that `=` signs closed early (exactly the bytes CPython's incremental
decoder has already emitted at that point; spare low bits are discarded in
lenient mode). -/
def decodeGroup : List Nat → List Nat
  | [v1, v2] => [v1 * 4 + v2 / 16]
  | [v1, v2, v3] => [v1 * 4 + v2 / 16, v2 % 16 * 16 + v3 / 4]
  | [v1, v2, v3, v4] => [v1 * 4 + v2 / 16, v2 % 16 * 16 + v3 / 4, v3 % 4 * 64 + v4]
  | _ => []

/-- CPython's lenient `binascii.a2b_base64` on translated input.  `quad` is
the group of sextets accumulated so far (length 0-3), `pads` the number of
`=` signs counted so far (only counted while at least 2 sextets are
pending, mirroring the short-circuit in the C source).  `none` is the
`binascii.Error` raised for a dangling unpadded group. -/
def a2b_b64_aux : List Char → List Nat → Nat → Option (List Nat)
  | [], quad, _ => if quad = [] then some [] else none
  | ch :: rest, quad, pads =>
    if ch = '=' then
      if 2 ≤ quad.length then
        if 4 ≤ quad.length + pads + 1 then some (decodeGroup quad)
        else a2b_b64_aux rest quad (pads + 1)
      else a2b_b64_aux rest quad pads
    else
      match b64val ch with
      | none => a2b_b64_aux rest quad pads
      | some v =>
        if quad.length = 3 then
          (a2b_b64_aux rest [] pads).map (fun t => decodeGroup (quad ++ [v]) ++ t)
        else a2b_b64_aux rest (quad ++ [v]) pads

/-- `base64.urlsafe_b64decode`: translate the URL-safe characters, then run
the lenient base64 decoder. -/
def urlsafe_b64decode (s : List Char) : Option (List Nat) :=
  a2b_b64_aux (s.map b64url_translate) [] 0

/-- `b64url_decode(s)` from ghost_client.py: re-append `'=' * (4 - len(s) % 4)`
and decode. -/
def b64url_decode (s : List Char) : Option (List Nat) :=
  urlsafe_b64decode (s ++ List.replicate (4 - s.length % 4) '=')

/-! #### Round-trip of the base64url codec -/

theorem b64val_translate_b64char {v : Nat} (h : v < 64) :
    b64val (b64url_translate (b64char v)) = some v := by
  have hall : ∀ w : Fin 64, b64val (b64url_translate (b64char w.val)) = some w.val := by decide
  exact hall ⟨v, h⟩

theorem b64char_ne_pad {v : Nat} (h : v < 64) : b64char v ≠ '=' := by
  have hall : ∀ w : Fin 64, b64char w.val ≠ '=' := by decide
  exact hall ⟨v, h⟩

theorem translate_b64char_ne_pad {v : Nat} (h : v < 64) :
    b64url_translate (b64char v) ≠ '=' := by
  have hall : ∀ w : Fin 64, b64url_translate (b64char w.val) ≠ '=' := by decide
  exact hall ⟨v, h⟩

theorem rstripPad_cons_ne {ch : Char} (h : ch ≠ '=') (t : List Char) :
    rstripPad (ch :: t) = ch :: rstripPad t := by
  simp [rstripPad, h]

/-- One in-alphabet character extends a group of fewer than 3 sextets. -/
theorem a2b_b64_aux_step_mid {v : Nat} (h : v < 64) (rest : List Char)
    (quad : List Nat) (pads : Nat) (hq : quad.length ≠ 3) :
    a2b_b64_aux (b64url_translate (b64char v) :: rest) quad pads
      = a2b_b64_aux rest (quad ++ [v]) pads := by
  rw [a2b_b64_aux, if_neg (translate_b64char_ne_pad h), b64val_translate_b64char h]
  simp [hq]

/-- One in-alphabet character completes a group of 3 sextets. -/
theorem a2b_b64_aux_step_last {v : Nat} (h : v < 64) (rest : List Char)
    (quad : List Nat) (pads : Nat) (hq : quad.length = 3) :
    a2b_b64_aux (b64url_translate (b64char v) :: rest) quad pads
      = (a2b_b64_aux rest [] pads).map (fun t => decodeGroup (quad ++ [v]) ++ t) := by
  rw [a2b_b64_aux, if_neg (translate_b64char_ne_pad h), b64val_translate_b64char h]
  simp [hq]

/-- Consuming one full group of 4 in-alphabet characters. -/
theorem a2b_b64_aux_quad {v1 v2 v3 v4 : Nat}
    (h1 : v1 < 64) (h2 : v2 < 64) (h3 : v3 < 64) (h4 : v4 < 64)
    (rest : List Char) (pads : Nat) :
    a2b_b64_aux (b64url_translate (b64char v1) :: b64url_translate (b64char v2) ::
        b64url_translate (b64char v3) :: b64url_translate (b64char v4) :: rest) [] pads
      = (a2b_b64_aux rest [] pads).map (fun t => decodeGroup [v1, v2, v3, v4] ++ t) := by
  rw [a2b_b64_aux_step_mid h1 _ _ _ (by simp),
    a2b_b64_aux_step_mid h2 _ _ _ (by simp),
    a2b_b64_aux_step_mid h3 _ _ _ (by simp),
    a2b_b64_aux_step_last h4 _ _ _ (by simp)]
  simp

theorem b64url_translate_pad : b64url_translate '=' = '=' := rfl

theorem b64url_decode_eq (s : List Char) :
    b64url_decode s
      = a2b_b64_aux ((s ++ List.replicate (4 - s.length % 4) '=').map b64url_translate) [] 0 := rfl

/-- Decoding a stripped 2-character tail group (one original byte). -/
theorem b64url_decode_two {v1 v2 : Nat} (h1 : v1 < 64) (h2 : v2 < 64) :
    b64url_decode [b64char v1, b64char v2] = some (decodeGroup [v1, v2]) := by
  have hshape : b64url_decode [b64char v1, b64char v2]
      = a2b_b64_aux (b64url_translate (b64char v1) :: b64url_translate (b64char v2) ::
          ['=', '=']) [] 0 := by
    rw [b64url_decode_eq]
    norm_num [List.replicate, b64url_translate_pad]
  rw [hshape, a2b_b64_aux_step_mid h1 _ _ _ (by simp),
    a2b_b64_aux_step_mid h2 _ _ _ (by simp)]
  rfl

/-- Decoding a stripped 3-character tail group (two original bytes). -/
theorem b64url_decode_three {v1 v2 v3 : Nat} (h1 : v1 < 64) (h2 : v2 < 64) (h3 : v3 < 64) :
    b64url_decode [b64char v1, b64char v2, b64char v3] = some (decodeGroup [v1, v2, v3]) := by
  have hshape : b64url_decode [b64char v1, b64char v2, b64char v3]
      = a2b_b64_aux (b64url_translate (b64char v1) :: b64url_translate (b64char v2) ::
          b64url_translate (b64char v3) :: ['=']) [] 0 := by
    rw [b64url_decode_eq]
    norm_num [List.replicate, b64url_translate_pad]
  rw [hshape, a2b_b64_aux_step_mid h1 _ _ _ (by simp),
    a2b_b64_aux_step_mid h2 _ _ _ (by simp), a2b_b64_aux_step_mid h3 _ _ _ (by simp)]
  rfl

/-- The stripped encoding of a 3-byte group followed by the rest. -/
theorem b64url_encode_cons3 (a b c : Nat) (rest : List Nat)
    (ha : a < 256) (hb : b < 256) (hc : c < 256) :
    b64url_encode (a :: b :: c :: rest)
      = b64char (a / 4) :: b64char (a % 4 * 16 + b / 16) ::
          b64char (b % 16 * 4 + c / 64) :: b64char (c % 64) :: b64url_encode rest := by
  have h1 : a / 4 < 64 := by omega
  have h2 : a % 4 * 16 + b / 16 < 64 := by omega
  have h3 : b % 16 * 4 + c / 64 < 64 := by omega
  have h4 : c % 64 < 64 := by omega
  show rstripPad (b64char (a / 4) :: b64char (a % 4 * 16 + b / 16) ::
      b64char (b % 16 * 4 + c / 64) :: b64char (c % 64) :: urlsafe_b64encode rest) = _
  rw [rstripPad_cons_ne (b64char_ne_pad h1), rstripPad_cons_ne (b64char_ne_pad h2),
    rstripPad_cons_ne (b64char_ne_pad h3), rstripPad_cons_ne (b64char_ne_pad h4)]
  rfl

/-- Round trip of the stripped-padding base64url codec, bounded form for the
induction on the byte count. -/
theorem b64url_roundtrip_bounded (n : Nat) :
    ∀ d : List Nat, d.length ≤ n → (∀ x ∈ d, x < 256) →
      b64url_decode (b64url_encode d) = some d := by
  induction n with
  | zero =>
    intro d hlen _
    have hnil : d = [] := List.eq_nil_of_length_eq_zero (Nat.le_zero.mp hlen)
    subst hnil
    rfl
  | succ n ih =>
    intro d hlen hbytes
    match d with
    | [] => rfl
    | [a] =>
      have ha : a < 256 := hbytes a (by simp)
      have h1 : a / 4 < 64 := by omega
      have h2 : a % 4 * 16 < 64 := by omega
      have he : b64url_encode [a] = [b64char (a / 4), b64char (a % 4 * 16)] := by
        show rstripPad [b64char (a / 4), b64char (a % 4 * 16), '=', '='] = _
        rw [rstripPad_cons_ne (b64char_ne_pad h1), rstripPad_cons_ne (b64char_ne_pad h2)]
        rfl
      rw [he, b64url_decode_two h1 h2]
      simp [decodeGroup]
      omega
    | [a, b] =>
      have ha : a < 256 := hbytes a (by simp)
      have hb : b < 256 := hbytes b (by simp)
      have h1 : a / 4 < 64 := by omega
      have h2 : a % 4 * 16 + b / 16 < 64 := by omega
      have h3 : b % 16 * 4 < 64 := by omega
      have he : b64url_encode [a, b]
          = [b64char (a / 4), b64char (a % 4 * 16 + b / 16), b64char (b % 16 * 4)] := by
        show rstripPad [b64char (a / 4), b64char (a % 4 * 16 + b / 16),
          b64char (b % 16 * 4), '='] = _
        rw [rstripPad_cons_ne (b64char_ne_pad h1), rstripPad_cons_ne (b64char_ne_pad h2),
          rstripPad_cons_ne (b64char_ne_pad h3)]
        rfl
      rw [he, b64url_decode_three h1 h2 h3]
      simp [decodeGroup]
      omega
    | a :: b :: c :: rest =>
      have ha : a < 256 := hbytes a (by simp)
      have hb : b < 256 := hbytes b (by simp)
      have hc : c < 256 := hbytes c (by simp)
      have hrest : ∀ x ∈ rest, x < 256 := fun x hx => hbytes x (by simp [hx])
      have hlen' : rest.length ≤ n := by
        simp only [List.length_cons] at hlen
        omega
      have ih' := ih rest hlen' hrest
      have h1 : a / 4 < 64 := by omega
      have h2 : a % 4 * 16 + b / 16 < 64 := by omega
      have h3 : b % 16 * 4 + c / 64 < 64 := by omega
      have h4 : c % 64 < 64 := by omega
      rw [b64url_encode_cons3 a b c rest ha hb hc, b64url_decode_eq]
      have hmod : 4 - (b64char (a / 4) :: b64char (a % 4 * 16 + b / 16) ::
          b64char (b % 16 * 4 + c / 64) :: b64char (c % 64) ::
            b64url_encode rest).length % 4
          = 4 - (b64url_encode rest).length % 4 := by
        simp only [List.length_cons]
        omega
      rw [hmod]
      simp only [List.cons_append, List.map_cons]
      rw [a2b_b64_aux_quad h1 h2 h3 h4, ← b64url_decode_eq, ih']
      simp [decodeGroup]
      omega

/-- Round trip of the stripped-padding base64url codec. -/
theorem b64url_roundtrip (d : List Nat) (hbytes : ∀ x ∈ d, x < 256) :
    b64url_decode (b64url_encode d) = some d :=
  b64url_roundtrip_bounded d.length d le_rfl hbytes

/-! ### SDP codec (`compress_sdp` / `decompress_sdp`, ghost_client.py lines 59-68)

`zlib.compress` / `zlib.decompress` belong to the external `zlib` library, so
they are parameters; their round-trip contract is a hypothesis of the
round-trip theorem.  The descriptor text is modelled by its UTF-8 bytes
(`sdp.encode()` / `.decode()` of the source are identities on this
representation). -/

/-- `compress_sdp(sdp)`: compress, then base64url-encode without padding. -/
def compress_sdp (zlibCompress : List Nat → List Nat) (sdp : List Nat) : List Char :=
  b64url_encode (zlibCompress sdp)

/-- `decompress_sdp(data)`: base64url-decode (restoring padding), then
decompress; `none` is the `binascii.Error`/`zlib.error` raised on failure. -/
def decompress_sdp (zlibDecompress : List Nat → Option (List Nat)) (data : List Char) :
    Option (List Nat) :=
  (b64url_decode data).bind zlibDecompress

/-! ### Cipher (`encrypt_message` / `decrypt_message`, ghost_client.py lines 42-54)

AES-256-GCM comes from the external `cryptography` library; it is a parameter
(an `AEAD` record), and its seal/open and authentication contracts are
hypotheses.  The fresh 12-byte nonce of `os.urandom(12)` is an explicit `iv`
argument.  `AESGCM.decrypt` raising `InvalidTag` (the spec's
`AuthenticationFailure`) is `decrypt = none`. -/

/-- The interface of `AESGCM(key)` used by the source: `encrypt key iv pt`
is the authenticated ciphertext (tag included), `decrypt key iv ct` is
`some` plaintext or `none` for `InvalidTag`. -/
structure AEAD where
  encrypt : List Nat → List Nat → List Nat → List Nat
  decrypt : List Nat → List Nat → List Nat → Option (List Nat)

/-- `encrypt_message(key, plaintext)`: AES-GCM seal with a fresh 12-byte IV,
returning `b64url_encode(iv + ct)`. -/
def encrypt_message (A : AEAD) (key iv pt : List Nat) : List Char :=
  b64url_encode (iv ++ A.encrypt key iv pt)

/-- `decrypt_message(key, data)`: base64url-decode, split off the first 12
bytes as the IV, AES-GCM open the rest.  `none` is any raised exception
(bad base64 or `InvalidTag`). -/
def decrypt_message (A : AEAD) (key : List Nat) (data : List Char) : Option (List Nat) :=
  (b64url_decode data).bind (fun raw => A.decrypt key (raw.take 12) (raw.drop 12))

/-! ### Claim theorems: codec and cipher -/

/-- C1.  Codec round trip: whenever the external `zlib` pair satisfies its
round-trip contract on the descriptor `d` (and produces bytes),
`decompress_sdp (compress_sdp d) = some d` — compression, unpadded base64url
encoding, deterministic padding restoration and decoding reproduce `d`
exactly. -/
theorem sdp_codec_roundtrip (zlibCompress : List Nat → List Nat)
    (zlibDecompress : List Nat → Option (List Nat)) (d : List Nat)
    (hzlib : zlibDecompress (zlibCompress d) = some d)
    (hbytes : ∀ x ∈ zlibCompress d, x < 256) :
    decompress_sdp zlibDecompress (compress_sdp zlibCompress d) = some d := by
  rw [compress_sdp, decompress_sdp, b64url_roundtrip (zlibCompress d) hbytes]
  simpa using hzlib

/-- Witness for C1 at a concrete descriptor, with the trivial (identity)
compressor standing in for `zlib`. -/
theorem sdp_codec_roundtrip_witness :
    decompress_sdp (fun b => some b) (compress_sdp (fun b => b)
        [103, 104, 111, 115, 116, 10, 0, 255])
      = some [103, 104, 111, 115, 116, 10, 0, 255] :=
  sdp_codec_roundtrip (fun b => b) (fun b => some b)
    [103, 104, 111, 115, 116, 10, 0, 255] rfl (by decide)

/-- C2.  Seal/open inverse: for a 12-byte IV and an AEAD satisfying the
AES-GCM open-of-seal contract at `(key, iv, pt)`,
`decrypt_message key (encrypt_message key pt) = some pt` — the prepended
nonce is recovered from the first 12 decoded bytes. -/
theorem decrypt_encrypt_message (A : AEAD) (key iv pt : List Nat)
    (hiv : iv.length = 12)
    (hbytes : ∀ x ∈ iv ++ A.encrypt key iv pt, x < 256)
    (hopen : A.decrypt key iv (A.encrypt key iv pt) = some pt) :
    decrypt_message A key (encrypt_message A key iv pt) = some pt := by
  rw [encrypt_message, decrypt_message,
    b64url_roundtrip (iv ++ A.encrypt key iv pt) hbytes]
  have htake : (iv ++ A.encrypt key iv pt).take 12 = iv := by
    rw [← hiv]
    exact List.take_left iv _
  have hdrop : (iv ++ A.encrypt key iv pt).drop 12 = A.encrypt key iv pt := by
    rw [← hiv]
    exact List.drop_left iv _
  simpa [htake, hdrop] using hopen

/-- Toy AEAD used only to instantiate cipher witnesses: the "ciphertext" is
the key followed by the plaintext, and opening checks the key. -/
def toyAEAD : AEAD where
  encrypt := fun key _ pt => key ++ pt
  decrypt := fun key _ ct => if ct.take 32 = key then some (ct.drop 32) else none

/-- Witness for C2 at a concrete key, IV and plaintext. -/
theorem decrypt_encrypt_message_witness :
    decrypt_message toyAEAD (List.replicate 32 7)
        (encrypt_message toyAEAD (List.replicate 32 7) (List.replicate 12 0) [104, 105])
      = some [104, 105] :=
  decrypt_encrypt_message toyAEAD (List.replicate 32 7) (List.replicate 12 0) [104, 105]
    (by decide) (by decide) (by decide)

/-- C3.  Authentication: under the AES-GCM authentication contract (opening
with a key different from the sealing key fails), decrypting a sealed
message with a wrong key yields the `InvalidTag` failure (the spec's
`AuthenticationFailure`), never partial or garbage plaintext. -/
theorem decrypt_message_wrong_key_fails (A : AEAD) (k1 k2 iv pt : List Nat)
    (hk : k1 ≠ k2)
    (hiv : iv.length = 12)
    (hbytes : ∀ x ∈ iv ++ A.encrypt k1 iv pt, x < 256)
    (hauth : ∀ k k' iv' p, k ≠ k' → A.decrypt k' iv' (A.encrypt k iv' p) = none) :
    decrypt_message A k2 (encrypt_message A k1 iv pt) = none := by
  rw [encrypt_message, decrypt_message,
    b64url_roundtrip (iv ++ A.encrypt k1 iv pt) hbytes]
  have htake : (iv ++ A.encrypt k1 iv pt).take 12 = iv := by
    rw [← hiv]
    exact List.take_left iv _
  have hdrop : (iv ++ A.encrypt k1 iv pt).drop 12 = A.encrypt k1 iv pt := by
    rw [← hiv]
    exact List.drop_left iv _
  simpa [htake, hdrop] using hauth k1 k2 iv pt hk

/-- Toy AEAD whose "ciphertext" is the length-prefixed key followed by the
plaintext: opening with any key other than the sealing key fails, so it
satisfies the authentication contract for all key pairs. -/
def toyAEADTag : AEAD where
  encrypt := fun key _ pt => key.length :: (key ++ pt)
  decrypt := fun key _ ct =>
    if ct.take 1 = [key.length] ∧ (ct.drop 1).take key.length = key
    then some ((ct.drop 1).drop key.length) else none

/-- The toy AEAD satisfies the wrong-key authentication contract. -/
theorem toyAEADTag_auth (k k' iv' p : List Nat) (hkk : k ≠ k') :
    toyAEADTag.decrypt k' iv' (toyAEADTag.encrypt k iv' p) = none := by
  simp only [toyAEADTag]
  rw [if_neg]
  rintro ⟨h1, h2⟩
  have hlen : k.length = k'.length := by simpa using h1
  have hk : (k ++ p).take k'.length = k' := by simpa using h2
  rw [← hlen, List.take_left] at hk
  exact hkk hk

/-- Witness for C3 at two concrete distinct 32-byte keys. -/
theorem decrypt_message_wrong_key_fails_witness :
    decrypt_message toyAEADTag (List.replicate 32 2)
        (encrypt_message toyAEADTag (List.replicate 32 1) (List.replicate 12 0) [104, 105])
      = none :=
  decrypt_message_wrong_key_fails toyAEADTag (List.replicate 32 1) (List.replicate 32 2)
    (List.replicate 12 0) [104, 105]
    (by decide) (by decide) (by decide) toyAEADTag_auth

/-! ### Message protocol and client state (ghost_client.py lines 72-278)

`json.loads` is external; it enters as a parameter producing a `JValue`
(the Python value resulting from JSON deserialization, composed with the
UTF-8 decode of the plaintext bytes; `none` is the raised
`UnicodeDecodeError`/`JSONDecodeError`).  JSON numbers are modelled as
integers — no claim depends on fractional values.  Python dynamic typing is
kept: `Message` fields other than `type` hold whatever JSON value the frame
carried, as the untyped dataclass does. -/

/-- A Python value produced by `json.loads`. -/
inductive JValue where
  | jnull
  | jbool (b : Bool)
  | jnum (n : Int)
  | jstr (s : String)
  | jarr (xs : List JValue)
  | jobj (fields : List (String × JValue))

/-- Python `value == "lit"` for a string literal: true only on equal `str`s. -/
def JValue.eqStr : JValue → String → Bool
  | .jstr s, t => s = t
  | _, _ => false

/-- `dict.get(k, d)` on the fields of a JSON object. -/
def objGet (fs : List (String × JValue)) (k : String) (d : JValue) : JValue :=
  (fs.lookup k).getD d

/-- Python `str(value)` as used by the f-string in the `join` branch.
Collection rendering is abbreviated (no claim inspects it). -/
def pyStr : JValue → String
  | .jnull => "None"
  | .jbool b => if b then "True" else "False"
  | .jnum n => toString n
  | .jstr s => s
  | .jarr _ => "[...]"
  | .jobj _ => "\x7b...\x7d"

/-- Python `for m in value` over a JSON-derived value: lists iterate their
elements, strings their 1-character substrings, dicts their keys; other
values raise `TypeError` (`none`). -/
def jiter : JValue → Option (List JValue)
  | .jarr xs => some xs
  | .jstr s => some (s.toList.map (fun ch => .jstr (String.singleton ch)))
  | .jobj fs => some (fs.map (fun p => JValue.jstr p.1))
  | _ => none

/-- The `Message` dataclass.  `type` is always set from a literal by
`_handle_raw`; the other fields carry the (dynamically typed) values the
frame supplied, with the dataclass defaults for omitted arguments. -/
structure Message where
  id : JValue
  type : String
  from_id : JValue
  nick : JValue
  text : JValue
  ts : JValue

/-- The mutable state of a `GhostClient` that the claims touch.  `pcCreated`
models `self.pc is not None`; `dc` models the data channel as its
`readyState` (`none` = no channel).  The unused `_peers` dict is omitted. -/
structure GhostClient where
  nick : String
  my_id : String
  room_id : Option String
  room_key : Option (List Nat)
  pcCreated : Bool
  dc : Option String
  msg_queue : List Message
  connected : Bool

/-- The `Message` a `chat`-typed JSON object (fields `fs`) is stored as:
`Message(id=..get('id',''), type='chat', from_id=..get('from',''),
nick=..get('nick','?'), text=..get('text',''), ts=..get('ts',0))`. -/
def chatMessageOf (fs : List (String × JValue)) : Message :=
  { id := objGet fs "id" (.jstr "")
    type := "chat"
    from_id := objGet fs "from" (.jstr "")
    nick := objGet fs "nick" (.jstr "?")
    text := objGet fs "text" (.jstr "")
    ts := objGet fs "ts" (.jnum 0) }

/-- The `sync` branch loop: `for m in messages: if m.get('type') == 'chat':
put(...)`.  Queue puts already performed survive a raised exception, so an
error carries the queue at raise time (`m.get` raises `AttributeError` on a
non-dict element). -/
def syncLoop (queue : List Message) : List JValue → Except (List Message) (List Message)
  | [] => .ok queue
  | m :: rest =>
    match m with
    | .jobj fs =>
      if (objGet fs "type" .jnull).eqStr "chat"
      then syncLoop (queue ++ [chatMessageOf fs]) rest
      else syncLoop queue rest
    | _ => .error queue

/-- The type-dispatch of `_handle_raw` after a successful decrypt and JSON
parse.  `.error q` is an exception escaping to the `except` handler with the
queue in state `q` (`msg.get` on a non-dict raises `AttributeError`;
iterating a non-iterable `messages` value raises `TypeError`). -/
def dispatch (freshId : String) (now : Int) (msg : JValue) (queue : List Message) :
    Except (List Message) (List Message) :=
  match msg with
  | .jobj fs =>
    let msg_type := objGet fs "type" (.jstr "")
    if msg_type.eqStr "chat" then
      .ok (queue ++ [chatMessageOf fs])
    else if msg_type.eqStr "join" then
      .ok (queue ++ [{ id := .jstr freshId, type := "sys", from_id := .jstr "",
                       nick := objGet fs "nick" (.jstr "?"),
                       text := .jstr (pyStr (objGet fs "nick" (.jstr "?")) ++ " joined"),
                       ts := .jnum now }])
    else if msg_type.eqStr "sync" then
      match jiter (objGet fs "messages" (.jarr [])) with
      | none => .error queue
      | some ms => syncLoop queue ms
    else if msg_type.eqStr "destroy" then
      .ok (queue ++ [{ id := .jstr freshId, type := "sys", from_id := .jstr "",
                       nick := .jstr "", text := .jstr "Room destroyed by admin",
                       ts := .jnum now }])
    else
      .ok queue
  | _ => .error queue

/-- The decrypt/parse/dispatch pipeline of `_handle_raw` once the room key
is in hand; the enclosing `try/except` logs any exception and keeps
whatever had been queued before it was raised. -/
def handle_with_key (A : AEAD) (jsonLoads : List Nat → Option JValue)
    (freshId : String) (now : Int) (c : GhostClient) (key : List Nat)
    (data : List Char) : GhostClient :=
  match decrypt_message A key data with
  | none => c
  | some plaintext =>
    match jsonLoads plaintext with
    | none => c
    | some msg =>
      match dispatch freshId now msg c.msg_queue with
      | .ok q => { c with msg_queue := q }
      | .error q => { c with msg_queue := q }

/-- `GhostClient._handle_raw(data)`: decrypt with `self.room_key`, JSON-parse,
dispatch (`AESGCM(None)` raising on an unset room key is the dropped-frame
`none` branch).  `freshId` models `str(uuid.uuid4())`, `now` models
`time.time() * 1000`. -/
def handle_raw (A : AEAD) (jsonLoads : List Nat → Option JValue)
    (freshId : String) (now : Int) (c : GhostClient) (data : List Char) : GhostClient :=
  match c.room_key with
  | none => c
  | some key => handle_with_key A jsonLoads freshId now c key data

/-- Python `if timeout:` — `None` and `0` are falsy. -/
def timeoutTruthy : Option ℚ → Bool
  | none => false
  | some q => decide (q ≠ 0)

/-- Result of one `receive` call. -/
inductive ReceiveOutcome where
  | received (m : Message) (c : GhostClient)
  | timedOut
  | blocks

/-- `GhostClient.receive(timeout)`: an item already queued is returned at
once; otherwise the call waits on the queue — bounded by `timeout` via
`asyncio.wait_for` (which raises `TimeoutError` at the deadline) exactly
when `timeout` is truthy, else indefinitely.  `future` abstracts the next
externally-arriving message and its arrival time (`none` = none ever
arrives). -/
def receive (c : GhostClient) (future : Option (ℚ × Message)) (timeout : Option ℚ) :
    ReceiveOutcome :=
  match c.msg_queue with
  | m :: rest => .received m { c with msg_queue := rest }
  | [] =>
    if timeoutTruthy timeout then
      match future with
      | some (t, m) => if t ≤ timeout.getD 0 then .received m c else .timedOut
      | none => .timedOut
    else
      match future with
      | some (_, m) => .received m c
      | none => .blocks

/-- `self.dc and self.dc.readyState == 'open'` from `_send_raw`. -/
def dcIsOpen (c : GhostClient) : Bool :=
  match c.dc with
  | some st => st = "open"
  | none => false

/-- The chat dict built by `GhostClient.send`. -/
def chatJson (my_id nick freshId text : String) (now : Int) : JValue :=
  .jobj [("id", .jstr freshId), ("type", .jstr "chat"), ("from", .jstr my_id),
    ("nick", .jstr nick), ("text", .jstr text), ("ts", .jnum now)]

/-- Result of `GhostClient.send`: the channel guard in `_send_raw` silently
drops the message when the channel is not open; `.errored` is the exception
`encrypt_message(None, ...)` would raise if the channel were open with no
room key set. -/
inductive SendResult where
  | dropped
  | sent (frame : List Char)
  | errored

/-- `GhostClient.send(text)`: build the chat dict, then `_send_raw` encrypts
and transmits it only if `self.dc and self.dc.readyState == 'open'`.
`jsonDumps` models `json.dumps` (external), `iv` the fresh nonce. -/
def send (A : AEAD) (jsonDumps : JValue → List Nat) (freshId : String) (now : Int)
    (iv : List Nat) (c : GhostClient) (text : String) : SendResult :=
  if dcIsOpen c then
    match c.room_key with
    | some key => .sent (encrypt_message A key iv (jsonDumps (chatJson c.my_id c.nick freshId text now)))
    | none => .errored
  else
    .dropped

/-- The error taxonomy of the handshake operations (the spec's names; the
source raises `AssertionError` for a wrong tag and `zlib.error`/
`binascii.Error` for an undecodable payload). -/
inductive GhostError where
  | invalidCodeFormat
  | malformedPayload

/-- `GhostClient.accept_offer(offer_code)`: assert the `O:` tag, decode the
SDP, create the peer connection and answer through the transport
(`answerFor` models aiortc's `setRemoteDescription`/`createAnswer`/
`setLocalDescription`/ICE wait), return the `A:` code.  The returned state
is the client after the call — unchanged whenever an error is raised, as
the assert and the decode precede every mutation. -/
def accept_offer (zlibCompress : List Nat → List Nat)
    (zlibDecompress : List Nat → Option (List Nat))
    (answerFor : List Nat → List Nat)
    (c : GhostClient) (offer_code : List Char) :
    GhostClient × Except GhostError (List Char) :=
  if offer_code.take 2 = ['O', ':'] then
    match decompress_sdp zlibDecompress (offer_code.drop 2) with
    | none => (c, .error .malformedPayload)
    | some sdp =>
      ({ c with pcCreated := true }, .ok ('A' :: ':' :: compress_sdp zlibCompress (answerFor sdp)))
  else
    (c, .error .invalidCodeFormat)

/-! ### Relay (`relay.py`)

`rooms = defaultdict(set)` maps a room id to its set of connected sockets.
Sockets are modelled as `Nat` handles, the registry as an association list
with unique keys (absence of a key = the room is not tracked). -/

/-- The relay registry `rooms`. -/
abbrev RoomsMap := List (String × List Nat)

/-- `rooms[room]` read through the `defaultdict`: absent rooms read as the
empty set. -/
def roomMembers (rooms : RoomsMap) (room : String) : List Nat :=
  (rooms.lookup room).getD []

/-- Store a (non-deleted) room's membership back into the registry. -/
def setRoom : RoomsMap → String → List Nat → RoomsMap
  | [], room, ms => [(room, ms)]
  | (r, s) :: rest, room, ms =>
    if r = room then (room, ms) :: rest else (r, s) :: setRoom rest room ms

/-- `del rooms[room]`. -/
def removeRoom (rooms : RoomsMap) (room : String) : RoomsMap :=
  rooms.filter (fun p => p.1 != room)

/-- The relay's JSON notices (`peers`/`join`/`leave`). -/
inductive RelayNotice where
  | peersCount (count : Nat)
  | joinNotice
  | leaveNotice

/-- The join section of `handle`: `rooms[room].add(ws)`, send
`peers {count}` to the joiner, send a `join` notice to every other member.
Returns the new registry and the (recipient, notice) sends. -/
def joinRoom (rooms : RoomsMap) (room : String) (ws : Nat) :
    RoomsMap × List (Nat × RelayNotice) :=
  let ms := roomMembers rooms room
  let ms2 := if ws ∈ ms then ms else ms ++ [ws]
  (setRoom rooms room ms2,
    (ws, .peersCount ms2.length) ::
      (ms2.filter (fun p => p != ws)).map (fun p => (p, .joinNotice)))

/-- The relay loop body of `handle`: a frame received from `sender` is sent
verbatim to every member of the sender's room except the sender. -/
def relayFrame (rooms : RoomsMap) (room : String) (sender : Nat) (frame : List Char) :
    List (Nat × List Char) :=
  ((roomMembers rooms room).filter (fun p => p != sender)).map (fun p => (p, frame))

/-- The `finally` section of `handle`: `rooms[room].discard(ws)`; delete the
room record if it became empty, otherwise send each remaining member a
`leave` notice. -/
def disconnectRoom (rooms : RoomsMap) (room : String) (ws : Nat) :
    RoomsMap × List (Nat × RelayNotice) :=
  let ms := (roomMembers rooms room).filter (fun p => p != ws)
  if ms.isEmpty then (removeRoom rooms room, [])
  else (setRoom rooms room ms, ms.map (fun p => (p, .leaveNotice)))

theorem lookup_removeRoom (rooms : RoomsMap) (room : String) :
    (removeRoom rooms room).lookup room = none := by
  induction rooms with
  | nil => rfl
  | cons p rest ih =>
    obtain ⟨r, s⟩ := p
    by_cases h : r = room
    · subst h
      simpa [removeRoom, List.filter_cons] using ih
    · have hb : ((r, s).1 != room) = true := by simp [h]
      have hlk : (room == r) = false := by simp [Ne.symm h]
      simp only [removeRoom, List.filter_cons, hb, if_pos] at ih ⊢
      simpa [List.lookup, hlk] using ih

theorem lookup_setRoom (rooms : RoomsMap) (room : String) (ms : List Nat) :
    (setRoom rooms room ms).lookup room = some ms := by
  induction rooms with
  | nil => simp [setRoom, List.lookup]
  | cons p rest ih =>
    obtain ⟨r, s⟩ := p
    by_cases h : r = room
    · simp [setRoom, h, List.lookup]
    · have hlk : (room == r) = false := by simp [Ne.symm h]
      simp [setRoom, h, List.lookup, hlk, ih]

theorem mem_setRoom {rooms : RoomsMap} {room : String} {ms : List Nat}
    {r : String} {s : List Nat} (h : (r, s) ∈ setRoom rooms room ms) :
    (r, s) ∈ rooms ∨ (r = room ∧ s = ms) := by
  induction rooms with
  | nil =>
    simp [setRoom] at h
    exact Or.inr ⟨h.1, h.2⟩
  | cons p rest ih =>
    by_cases hp : p.1 = room
    · cases p with
      | mk r0 s0 =>
        simp only at hp
        simp [setRoom, hp] at h
        rcases h with ⟨h1, h2⟩ | h
        · exact Or.inr ⟨h1, h2⟩
        · exact Or.inl (List.mem_cons_of_mem _ h)
    · cases p with
      | mk r0 s0 =>
        simp only at hp
        simp [setRoom, hp] at h
        rcases h with ⟨h1, h2⟩ | h
        · subst h1; subst h2; exact Or.inl (List.mem_cons_self _ _)
        · rcases ih h with h' | h'
          · exact Or.inl (List.mem_cons_of_mem _ h')
          · exact Or.inr h'

theorem mem_removeRoom {rooms : RoomsMap} {room : String} {p : String × List Nat}
    (h : p ∈ removeRoom rooms room) : p ∈ rooms :=
  List.mem_of_mem_filter h

/-! ### Claim theorems: client behaviour and relay -/

/-- AEAD that passes payloads through unchanged (decrypt always succeeds);
used only to instantiate witnesses and counterexamples. -/
def toyAEADAny : AEAD where
  encrypt := fun _ _ pt => pt
  decrypt := fun _ _ ct => some ct

/-- A concrete connected client (own id `"me"`, open data channel, empty
inbound queue). -/
def cexClient : GhostClient where
  nick := "bot"
  my_id := "me"
  room_id := some "r"
  room_key := some (List.replicate 32 0)
  pcCreated := true
  dc := some "open"
  msg_queue := []
  connected := true

/-- Fields of a decrypted chat frame whose `from` equals `cexClient`'s own
identifier. -/
def selfChatFields : List (String × JValue) :=
  [("type", .jstr "chat"), ("id", .jstr "m1"), ("from", .jstr "me"),
    ("nick", .jstr "bot"), ("text", .jstr "hello"), ("ts", .jnum 5)]

/-- The decrypted content of that frame. -/
def selfChatJson : JValue := .jobj selfChatFields

/-- The `Message` `_handle_raw` builds from it. -/
def selfChatMessage : Message := chatMessageOf selfChatFields

/-- C4 counterexample.  A frame that decrypts and parses to a `chat` message
with `from` equal to the client's own `my_id` ("me") IS placed on the
inbound queue by `_handle_raw` (the handler performs no check against
`my_id`), and `receive()` returns exactly that self-originated chat
message.  This refutes the claimed self-echo suppression at a concrete
input. -/
theorem handle_raw_self_echo_counterexample :
    receive (handle_raw toyAEADAny (fun _ => some selfChatJson) "f1" 0 cexClient
        ['A', 'A', 'A', 'A']) none (some 1)
      = .received selfChatMessage cexClient
    ∧ selfChatMessage.type = "chat"
    ∧ selfChatMessage.from_id = .jstr cexClient.my_id := by
  exact ⟨rfl, rfl, rfl⟩

/-- C4 amended.  `_handle_raw` appends every successfully decrypted and
parsed `chat` frame to the inbound queue regardless of its `from` field —
in particular a frame with `from = my_id` is queued (self-echo filtering is
left to callers). -/
theorem handle_raw_chat_queued_regardless_of_sender (A : AEAD)
    (jsonLoads : List Nat → Option JValue) (freshId : String) (now : Int)
    (c : GhostClient) (data : List Char) (key pt : List Nat)
    (fs : List (String × JValue))
    (hkey : c.room_key = some key)
    (hdec : decrypt_message A key data = some pt)
    (hparse : jsonLoads pt = some (.jobj fs))
    (htype : (objGet fs "type" (.jstr "")).eqStr "chat" = true) :
    (handle_raw A jsonLoads freshId now c data).msg_queue
      = c.msg_queue ++ [chatMessageOf fs] := by
  unfold handle_raw
  rw [hkey]
  show (handle_with_key A jsonLoads freshId now c key data).msg_queue = _
  unfold handle_with_key
  rw [hdec]
  show ((match jsonLoads pt with
    | none => c
    | some msg =>
      match dispatch freshId now msg c.msg_queue with
      | .ok q => { c with msg_queue := q }
      | .error q => { c with msg_queue := q }) : GhostClient).msg_queue = _
  rw [hparse]
  simp [dispatch, htype]

/-- Witness for the amended C4 at the concrete self-echo frame. -/
theorem handle_raw_chat_queued_regardless_of_sender_witness :
    (handle_raw toyAEADAny (fun _ => some selfChatJson) "f1" 0 cexClient
        ['A', 'A', 'A', 'A']).msg_queue
      = cexClient.msg_queue ++ [chatMessageOf selfChatFields] :=
  handle_raw_chat_queued_regardless_of_sender toyAEADAny (fun _ => some selfChatJson)
    "f1" 0 cexClient ['A', 'A', 'A', 'A'] (List.replicate 32 0) [] selfChatFields
    rfl rfl rfl rfl

/-- C5.  A frame that fails to decrypt, or whose plaintext fails to parse
into a structured (JSON-object) message, is swallowed: `_handle_raw` leaves
the client — in particular its inbound queue — unchanged, and (being a
total function into `GhostClient`) raises nothing. -/
theorem handle_raw_malformed_dropped (A : AEAD) (jsonLoads : List Nat → Option JValue)
    (freshId : String) (now : Int) (c : GhostClient) (data : List Char)
    (h : ∀ key pt, c.room_key = some key → decrypt_message A key data = some pt →
      jsonLoads pt = none ∨ ∀ fs, jsonLoads pt ≠ some (.jobj fs)) :
    handle_raw A jsonLoads freshId now c data = c := by
  unfold handle_raw
  cases hk : c.room_key with
  | none => rfl
  | some key =>
    show handle_with_key A jsonLoads freshId now c key data = c
    unfold handle_with_key
    cases hd : decrypt_message A key data with
    | none => rfl
    | some pt =>
      show (match jsonLoads pt with
        | none => c
        | some msg =>
          match dispatch freshId now msg c.msg_queue with
          | .ok q => { c with msg_queue := q }
          | .error q => { c with msg_queue := q }) = c
      rcases h key pt hk hd with hp | hp
      · rw [hp]
      · cases hj : jsonLoads pt with
        | none => rfl
        | some msg =>
          show (match dispatch freshId now msg c.msg_queue with
            | .ok q => { c with msg_queue := q }
            | .error q => { c with msg_queue := q }) = c
          cases msg with
          | jobj fs => exact absurd hj (hp fs)
          | jnull => rfl
          | jbool b => rfl
          | jnum n => rfl
          | jstr s => rfl
          | jarr xs => rfl

/-- Witness for C5: a frame whose plaintext does not parse leaves the
client unchanged. -/
theorem handle_raw_malformed_dropped_witness :
    handle_raw toyAEADAny (fun _ => none) "f1" 0 cexClient ['A', 'A', 'A', 'A']
      = cexClient :=
  handle_raw_malformed_dropped toyAEADAny (fun _ => none) "f1" 0 cexClient
    ['A', 'A', 'A', 'A'] (fun _ _ _ _ => Or.inl rfl)

/-- `cexClient` with its data channel closed. -/
def closedClient : GhostClient := { cexClient with dc := some "closed" }

/-- C6 counterexample.  `send` on a client whose channel is not open
evaluates to `.dropped`: the guard in `_send_raw` silently discards the
message and control returns normally — no `ChannelClosed` (or any other)
error reaches the caller, refuting the claimed raise at a concrete input. -/
theorem send_closed_channel_counterexample :
    send toyAEADAny (fun _ => []) "f1" 0 (List.replicate 12 0) closedClient "hi"
      = .dropped := rfl

/-- C6 amended.  When the channel is not open, `send` silently drops the
message (transmits nothing, raises nothing); when it is open, `send` seals
the constructed `chat` dict with the room key and transmits it. -/
theorem send_behavior (A : AEAD) (jsonDumps : JValue → List Nat) (freshId : String)
    (now : Int) (iv : List Nat) (c : GhostClient) (text : String) (key : List Nat)
    (hkey : c.room_key = some key) :
    (dcIsOpen c = false → send A jsonDumps freshId now iv c text = .dropped) ∧
    (dcIsOpen c = true → send A jsonDumps freshId now iv c text
        = .sent (encrypt_message A key iv
            (jsonDumps (chatJson c.my_id c.nick freshId text now)))) := by
  constructor
  · intro h
    simp [send, h]
  · intro h
    simp [send, h, hkey]

/-- Witness for the amended C6 on the concrete open client. -/
theorem send_behavior_witness :
    send toyAEADAny (fun _ => [1, 2]) "f1" 0 (List.replicate 12 0) cexClient "hi"
      = .sent (encrypt_message toyAEADAny (List.replicate 32 0) (List.replicate 12 0)
          [1, 2]) :=
  (send_behavior toyAEADAny (fun _ => [1, 2]) "f1" 0 (List.replicate 12 0)
    cexClient "hi" (List.replicate 32 0) rfl).2 rfl

/-- C7.  `accept_offer` on a code whose first two characters are not `O:`
fails with the wrong-tag error (`InvalidCodeFormat`, the failing `assert`
of the source) and returns the client state completely unchanged: the
assert precedes every mutation. -/
theorem accept_offer_bad_tag (zlibCompress : List Nat → List Nat)
    (zlibDecompress : List Nat → Option (List Nat)) (answerFor : List Nat → List Nat)
    (c : GhostClient) (code : List Char)
    (h : code.take 2 ≠ ['O', ':']) :
    accept_offer zlibCompress zlibDecompress answerFor c code
      = (c, .error .invalidCodeFormat) := by
  simp [accept_offer, h]

/-- Witness for C7 at the spec's own bad code `"X:garbage"`. -/
theorem accept_offer_bad_tag_witness :
    accept_offer (fun b => b) (fun b => some b) (fun b => b) cexClient
        "X:garbage".toList
      = (cexClient, .error .invalidCodeFormat) :=
  accept_offer_bad_tag (fun b => b) (fun b => some b) (fun b => b) cexClient
    "X:garbage".toList (by decide)

/-- C8.  Relay fan-out: a frame received from `sender` is delivered, as a
`(recipient, payload)` send, exactly to the members of the sender's room
other than the sender, with the payload forwarded verbatim — members of
other rooms (anyone not in `roomMembers rooms room`) receive nothing. -/
theorem relay_fanout (rooms : RoomsMap) (room : String) (sender : Nat)
    (frame : List Char) (p : Nat) (f : List Char) :
    (p, f) ∈ relayFrame rooms room sender frame
      ↔ (p ∈ roomMembers rooms room ∧ p ≠ sender ∧ f = frame) := by
  simp only [relayFrame, List.mem_map, List.mem_filter, bne_iff_ne, Prod.mk.injEq]
  constructor
  · rintro ⟨a, ⟨ham, hane⟩, rfl, rfl⟩
    exact ⟨ham, hane, rfl⟩
  · rintro ⟨hmem, hne, rfl⟩
    exact ⟨p, ⟨hmem, hne⟩, rfl, rfl⟩

/-- C9.  Relay room cleanup: removing the last member deletes the room's
record from the registry; a later join to that room id starts from a fresh
membership containing only the joiner; when members remain instead, the
registry keeps exactly the remaining members and each of them is sent a
`leave` notice; and both the disconnect and the join step preserve the
invariant that the registry maps only rooms with at least one member. -/
theorem relay_room_cleanup (rooms : RoomsMap) (room : String) (ws w2 : Nat) :
    ((roomMembers rooms room).filter (fun p => p != ws) = [] →
        (disconnectRoom rooms room ws).1.lookup room = none) ∧
    ((roomMembers rooms room).filter (fun p => p != ws) ≠ [] →
        (disconnectRoom rooms room ws).1.lookup room
            = some ((roomMembers rooms room).filter (fun p => p != ws)) ∧
          (disconnectRoom rooms room ws).2
            = ((roomMembers rooms room).filter (fun p => p != ws)).map
                (fun p => (p, RelayNotice.leaveNotice))) ∧
    (rooms.lookup room = none → roomMembers (joinRoom rooms room w2).1 room = [w2]) ∧
    ((∀ r ms, (r, ms) ∈ rooms → ms ≠ []) →
        ∀ r ms, (r, ms) ∈ (disconnectRoom rooms room ws).1 → ms ≠ []) ∧
    ((∀ r ms, (r, ms) ∈ rooms → ms ≠ []) →
        ∀ r ms, (r, ms) ∈ (joinRoom rooms room w2).1 → ms ≠ []) := by
  refine ⟨?_, ?_, ?_, ?_, ?_⟩
  · intro hempty
    simp [disconnectRoom, List.isEmpty_iff.mpr hempty, lookup_removeRoom]
  · intro hne
    have hno : ((roomMembers rooms room).filter (fun p => p != ws)).isEmpty = false :=
      by simpa [List.isEmpty_iff] using hne
    simp [disconnectRoom, hno, lookup_setRoom]
  · intro habs
    simp [joinRoom, roomMembers, habs, lookup_setRoom]
  · intro hinv r ms hmem
    simp only [disconnectRoom] at hmem
    by_cases hempty : ((roomMembers rooms room).filter (fun p => p != ws)).isEmpty
    · rw [if_pos hempty] at hmem
      exact hinv r ms (mem_removeRoom hmem)
    · rw [if_neg hempty] at hmem
      rcases mem_setRoom hmem with h' | ⟨h1, h2⟩
      · exact hinv r ms h'
      · subst h2
        simpa [List.isEmpty_iff] using hempty
  · intro hinv r ms hmem
    simp only [joinRoom] at hmem
    rcases mem_setRoom hmem with h' | ⟨h1, h2⟩
    · exact hinv r ms h'
    · subst h2
      by_cases hw : w2 ∈ roomMembers rooms room
      · simp only [if_pos hw]
        intro hcontra
        rw [hcontra] at hw
        exact List.not_mem_nil w2 hw
      · simp [if_neg hw]

/-- Witness for C9: last-member disconnect removes the record; a disconnect
with a member left keeps exactly that member and sends it a `leave`;
a join to an untracked room starts from the fresh membership `[5]`. -/
theorem relay_room_cleanup_witness :
    (disconnectRoom [("abc", [1])] "abc" 1).1.lookup "abc" = none ∧
    ((disconnectRoom [("abc", [1, 2])] "abc" 1).1.lookup "abc" = some [2] ∧
      (disconnectRoom [("abc", [1, 2])] "abc" 1).2 = [(2, RelayNotice.leaveNotice)]) ∧
    roomMembers (joinRoom [] "abc" 5).1 "abc" = [5] :=
  ⟨(relay_room_cleanup [("abc", [1])] "abc" 1 0).1 (by decide),
    (relay_room_cleanup [("abc", [1, 2])] "abc" 1 0).2.1 (by decide),
    (relay_room_cleanup [] "abc" 0 5).2.2.1 rfl⟩

/-- C10.  `receive` treats a falsy timeout (`None` or `0`) as "no deadline":
its wait can then never produce the timeout outcome, and the timeout
outcome is only possible when the supplied timeout is truthy (nonzero). -/
theorem receive_timeout_semantics (c : GhostClient) (future : Option (ℚ × Message)) :
    receive c future none ≠ .timedOut ∧
    receive c future (some 0) ≠ .timedOut ∧
    ∀ timeout, receive c future timeout = .timedOut → timeoutTruthy timeout = true := by
  refine ⟨?_, ?_, ?_⟩
  · cases hq : c.msg_queue with
    | cons m rest => simp [receive, hq]
    | nil =>
      cases future with
      | none => simp [receive, hq, timeoutTruthy]
      | some tm => simp [receive, hq, timeoutTruthy]
  · cases hq : c.msg_queue with
    | cons m rest => simp [receive, hq]
    | nil =>
      cases future with
      | none => simp [receive, hq, timeoutTruthy]
      | some tm => simp [receive, hq, timeoutTruthy]
  · intro timeout h
    by_contra hnt
    have ht : timeoutTruthy timeout = false := by
      cases htt : timeoutTruthy timeout
      · rfl
      · exact absurd htt hnt
    cases hq : c.msg_queue with
    | cons m rest => simp [receive, hq] at h
    | nil =>
      cases future with
      | none => simp [receive, hq, ht] at h
      | some tm => simp [receive, hq, ht] at h

/-- Witness for C10: a truthy timeout at an empty queue with no arriving
traffic does time out, so by the theorem that timeout is truthy. -/
theorem receive_timeout_semantics_witness : timeoutTruthy (some 1) = true :=
  (receive_timeout_semantics cexClient none).2.2 (some 1) rfl

end Ghost
